import Mathlib

/-!
Verification development for the `cognition` repository: an oblate
spheroidal coordinate frame (src/cogs/src/oblate_spheroid.rs) built on a
2D unit-circle tangent solver (src/cogs/src/unit_circle.rs).

The Rust `f64` arithmetic is embedded over the real numbers `ℝ`; the two
claims about IEEE-754 special values (NaN propagation) are settled over a
separate exact-arithmetic IEEE special-value model `Fp` defined below.
Vectors `na::SMatrix<f64, n, 1>` become the structures `V2`/`V3`; the 3x3
matrices become Mathlib `Matrix (Fin 3) (Fin 3) ℝ` values.
-/

noncomputable section

/-- A 2-vector of reals, embedding nalgebra `SMatrix<f64, 2, 1>`. -/
@[ext]
structure V2 where
  x : ℝ
  y : ℝ

/-- A 3-vector of reals, embedding nalgebra `SMatrix<f64, 3, 1>`. -/
@[ext]
structure V3 where
  x : ℝ
  y : ℝ
  z : ℝ

instance : Add V2 := ⟨fun u v => ⟨u.x + v.x, u.y + v.y⟩⟩

instance : Sub V2 := ⟨fun u v => ⟨u.x - v.x, u.y - v.y⟩⟩

instance : SMul ℝ V2 := ⟨fun c v => ⟨c * v.x, c * v.y⟩⟩

instance : Add V3 := ⟨fun u v => ⟨u.x + v.x, u.y + v.y, u.z + v.z⟩⟩

instance : Sub V3 := ⟨fun u v => ⟨u.x - v.x, u.y - v.y, u.z - v.z⟩⟩

instance : SMul ℝ V3 := ⟨fun c v => ⟨c * v.x, c * v.y, c * v.z⟩⟩

/-- Dot product of 2-vectors (nalgebra `dot`). -/
def V2.dot (u v : V2) : ℝ := u.x * v.x + u.y * v.y

/-- Componentwise division of a 2-vector by a scalar (nalgebra `pos/rmag`). -/
def V2.divs (v : V2) (c : ℝ) : V2 := ⟨v.x / c, v.y / c⟩

/-- Dot product of 3-vectors (nalgebra `dot`). -/
def V3.dot (u v : V3) : ℝ := u.x * v.x + u.y * v.y + u.z * v.z

/-- Cross product of 3-vectors (nalgebra `cross`). -/
def V3.cross (u v : V3) : V3 :=
  ⟨u.y * v.z - u.z * v.y, u.z * v.x - u.x * v.z, u.x * v.y - u.y * v.x⟩

/-- Euclidean norm of a 3-vector (nalgebra `norm`). -/
def V3.norm (v : V3) : ℝ := Real.sqrt (v.dot v)

/-- Normalization, embedding `na::Unit::new_normalize(v).into_inner()`:
the vector divided by its Euclidean norm. -/
def V3.normalize (v : V3) : V3 := ⟨v.x / v.norm, v.y / v.norm, v.z / v.norm⟩

/-- The zero 3-vector. -/
def V3.zero : V3 := ⟨0, 0, 0⟩

theorem V2.smul_mk2 (c a b : ℝ) : c • (⟨a, b⟩ : V2) = ⟨c * a, c * b⟩ := rfl

theorem V2.add_mk2 (a b c d : ℝ) : (⟨a, b⟩ : V2) + (⟨c, d⟩ : V2) = ⟨a + c, b + d⟩ := rfl

theorem V2.sub_mk2 (a b c d : ℝ) : (⟨a, b⟩ : V2) - (⟨c, d⟩ : V2) = ⟨a - c, b - d⟩ := rfl

theorem V3.smul_mk3 (c a b d : ℝ) : c • (⟨a, b, d⟩ : V3) = ⟨c * a, c * b, c * d⟩ := rfl

theorem V3.add_mk3 (a b c d e f : ℝ) :
    (⟨a, b, c⟩ : V3) + (⟨d, e, f⟩ : V3) = ⟨a + d, b + e, c + f⟩ := rfl

theorem V3.sub_mk3 (a b c d e f : ℝ) :
    (⟨a, b, c⟩ : V3) - (⟨d, e, f⟩ : V3) = ⟨a - d, b - e, c - f⟩ := rfl

/-- Four-quadrant arctangent, embedding Rust `f64::atan2`:
`atan2 y x` is the argument of the complex number `x + y*i`, with values
in `(-π, π]` and `atan2 0 0 = 0`, matching `f64::atan2` over the reals. -/
def atan2 (y x : ℝ) : ℝ := Complex.arg (Complex.ofReal x + Complex.ofReal y * Complex.I)

namespace unit_circle

/-- Embedding of `unit_circle::tangent` (src/cogs/src/unit_circle.rs,
lines 30-57): tangent point on the unit circle from position `pos`, on
the side the pointing vector `pnt` favors. -/
def tangent (pos pnt : V2) : V2 :=
  let r2 := pos.dot pos
  let rmag := Real.sqrt r2
  let rhat := pos.divs rmag
  -- Inside or on the circle
  let s2 := r2 - 1
  if s2 ≤ 0 then
    rhat
  else
    -- Sine and cosine of angle between position vector and tangent
    -- pointing vector
    let s := Real.sqrt s2
    let sa := 1 / rmag
    let ca := s * sa
    -- Orthogonal to rhat - used to form linear combo to tangent point
    let rhat_orth : V2 := ⟨-rhat.y, rhat.x⟩
    -- Along rhat component and normal components
    let tpa := (rmag - s * ca) • rhat
    let tpn := (s * sa) • rhat_orth
    if pnt.dot rhat_orth > 0 then
      tpa + tpn
    else
      tpa - tpn

/-- Modelled from the spec (section 4.1), for comparison with
`unit_circle.tangent`: if `‖pos‖² ≤ 1` return `pos/‖pos‖`; otherwise with
`rhat = pos/‖pos‖`, `s = √(‖pos‖² - 1)`, `sinα = 1/‖pos‖`, `cosα = s·sinα`
and `rhat_orth = (-rhat.y, rhat.x)`, return
`(‖pos‖ - s·cosα)·rhat ± s·sinα·rhat_orth`, the sign `+` exactly when
`pnt · rhat_orth > 0`. -/
def tangent_spec (pos pnt : V2) : V2 :=
  let nrm := Real.sqrt (pos.dot pos)
  if nrm ^ 2 ≤ 1 then
    pos.divs nrm
  else
    let rhat := pos.divs nrm
    let s := Real.sqrt (nrm ^ 2 - 1)
    let sinA := 1 / nrm
    let cosA := s * sinA
    let rhat_orth : V2 := ⟨-rhat.y, rhat.x⟩
    if pnt.dot rhat_orth > 0 then
      ((nrm - s * cosA) • rhat) + ((s * sinA) • rhat_orth)
    else
      ((nrm - s * cosA) • rhat) - ((s * sinA) • rhat_orth)

end unit_circle

/-- Embedding of the `OblateSpheroid` struct: eccentricity, semimajor
axis, longitude, latitude fraction, and the cached Cartesian triple. -/
@[ext]
structure OblateSpheroid where
  ecc : ℝ
  sma : ℝ
  lon : ℝ
  lat : ℝ
  xyz : V3

namespace OblateSpheroid

/-- Embedding of `OblateSpheroid::default`: unit sphere at (1, 0, 0). -/
def default : OblateSpheroid := ⟨0, 1, 0, 0, ⟨1, 0, 0⟩⟩

/-- Embedding of `OblateSpheroid::set_with_ose` (lines 465-476): set the
oblate-spheroidal coordinates and recompute the Cartesian triple. -/
def set_with_ose (_self : OblateSpheroid) (eccen smaj lam eta : ℝ) : OblateSpheroid :=
  let sqometa2 := Real.sqrt (1 - eta * eta)
  ⟨eccen, smaj, lam, eta,
   ⟨smaj * sqometa2 * Real.cos lam,
    smaj * sqometa2 * Real.sin lam,
    smaj * eta * Real.sqrt (1 - eccen * eccen)⟩⟩

/-- Embedding of `OblateSpheroid::set_with_cartesian` (lines 486-498):
store the Cartesian triple and derive the oblate-spheroidal coordinates. -/
def set_with_cartesian (_self : OblateSpheroid) (eccen : ℝ) (cart : V3) : OblateSpheroid :=
  let x2y2 := cart.x * cart.x + cart.y * cart.y
  let z2 := cart.z * cart.z
  let ome2 := 1 - eccen * eccen
  let sma := Real.sqrt (x2y2 + z2 / ome2)
  ⟨eccen, sma, atan2 cart.y cart.x, cart.z / (sma * Real.sqrt ome2), cart⟩

/-- Accessor `cartesian()`. -/
def cartesian (os : OblateSpheroid) : V3 := os.xyz

/-- Embedding of `semiminor()`: `sma * sqrt(1 - ecc^2)`. -/
def semiminor (os : OblateSpheroid) : ℝ :=
  os.sma * Real.sqrt (1 - os.ecc * os.ecc)

/-- Embedding of `jacobian()` (lines 249-260): partial derivatives of
(x, y, z) with respect to (sma, lon, lat). -/
def jacobian (os : OblateSpheroid) : Matrix (Fin 3) (Fin 3) ℝ :=
  let a := os.sma
  let eta := os.lat
  let sqome2 := Real.sqrt (1 - os.ecc * os.ecc)
  let sqometa2 := Real.sqrt (1 - eta * eta)
  let cl := Real.cos os.lon
  let sl := Real.sin os.lon
  !![sqometa2 * cl, -a * sqometa2 * sl, -a * eta * cl / sqometa2;
     sqometa2 * sl,  a * sqometa2 * cl, -a * eta * sl / sqometa2;
     eta * sqome2,   0,                  a * sqome2]

/-- Embedding of `covariant_basis()` (lines 268-282): the three tangent
vectors with respect to (sma, lon, lat), as a triple. -/
def covariant_basis (os : OblateSpheroid) : V3 × V3 × V3 :=
  let a := os.sma
  let eta := os.lat
  let sqome2 := Real.sqrt (1 - os.ecc * os.ecc)
  let sqometa2 := Real.sqrt (1 - eta * eta)
  let cl := Real.cos os.lon
  let sl := Real.sin os.lon
  (⟨sqometa2 * cl, sqometa2 * sl, eta * sqome2⟩,
   ⟨-a * sqometa2 * sl, a * sqometa2 * cl, 0⟩,
   ⟨-a * eta * cl / sqometa2, -a * eta * sl / sqometa2, a * sqome2⟩)

/-- Embedding of `covariant_metric()` (lines 290-301). -/
def covariant_metric (os : OblateSpheroid) : Matrix (Fin 3) (Fin 3) ℝ :=
  let a2 := os.sma * os.sma
  let e2 := os.ecc * os.ecc
  let eta2 := os.lat * os.lat
  let ometa2 := 1 - eta2
  let naetae2 := -1 * os.sma * os.lat * e2
  !![1 - e2 * eta2, 0,          naetae2;
     0,             a2 * ometa2, 0;
     naetae2,       0,           a2 * (1 - e2 + eta2 / ometa2)]

/-- Embedding of `volume_element()` (lines 310-313). -/
def volume_element (os : OblateSpheroid) : ℝ :=
  os.sma * os.sma * Real.sqrt (1 - os.ecc * os.ecc)

/-- Embedding of `inverse_jacobian()` (lines 322-339): partial
derivatives of (sma, lon, lat) with respect to (x, y, z), written — as in
the source — in terms of the cached Cartesian components and `sma`. -/
def inverse_jacobian (os : OblateSpheroid) : Matrix (Fin 3) (Fin 3) ℝ :=
  let a := os.sma
  let ainv := 1 / a
  let ainv2 := ainv * ainv
  let ainv3 := ainv * ainv2
  let ome2 := 1 - os.ecc * os.ecc
  let sqome2inv := 1 / Real.sqrt ome2
  let x := os.xyz.x
  let x2 := x * x
  let y := os.xyz.y
  let y2 := y * y
  let z := os.xyz.z
  !![ainv * x, ainv * y, ainv * z / ome2;
     -y / (x2 + y2), 1 / (x * (1 + y2 / x2)), 0;
     -ainv3 * x * z * sqome2inv, -ainv3 * y * z * sqome2inv,
      ainv * sqome2inv * (1 - z * z * ainv2 / ome2)]

/-- Embedding of `contravariant_basis()` (lines 347-362): the dual basis
vectors, as a triple. -/
def contravariant_basis (os : OblateSpheroid) : V3 × V3 × V3 :=
  let a := os.sma
  let eta := os.lat
  let ometa2 := 1 - eta * eta
  let sqome2 := Real.sqrt (1 - os.ecc * os.ecc)
  let sqometa2 := Real.sqrt ometa2
  let cl := Real.cos os.lon
  let sl := Real.sin os.lon
  (⟨sqometa2 * cl, sqometa2 * sl, eta / sqome2⟩,
   ⟨-sl / (a * sqometa2), cl / (a * sqometa2), 0⟩,
   ⟨-eta * sqometa2 * cl / a, -eta * sqometa2 * sl / a, ometa2 / (a * sqome2)⟩)

/-- Embedding of `contravariant_metric()` (lines 370-388). -/
def contravariant_metric (os : OblateSpheroid) : Matrix (Fin 3) (Fin 3) ℝ :=
  let e2 := os.ecc * os.ecc
  let eta2 := os.lat * os.lat
  let ome2 := 1 - e2
  let ometa2 := 1 - eta2
  let inv_a := 1 / os.sma
  let inv_a2 := inv_a * inv_a
  let inv_ome2 := 1 / ome2
  let off_diag := os.lat * e2 * ometa2 * inv_ome2 * inv_a
  let z_11 := 1 + e2 * eta2 * inv_ome2
  let z_33 := ometa2 * (1 - e2 * eta2) * inv_ome2 * inv_a2
  !![z_11,     0,               off_diag;
     0,        inv_a2 / ometa2, 0;
     off_diag, 0,               z_33]

/-- Embedding of `surface_tangent()` (lines 411-449): affine map to the
unit sphere, reduction to 2D in the orthonormal frame spanned by the
transformed position and pointing vectors, unit-circle tangent solve,
and the inverse frame and affine maps back to spheroid space.  The
diagonal affine matrices are applied componentwise; the frame matrix
`to_3d = [xhat yhat zhat]` applied to `(u, v, 0)` is `u•xhat + v•yhat`,
and its transpose `to_2d` applied to a vector gives the dot products
with `xhat`, `yhat` (only the first two components are kept, as in the
source's `fixed_view::<2,1>`). -/
def surface_tangent (os : OblateSpheroid) (pos pnt : V3) : V3 :=
  -- Oblate spheroid to unit sphere affine transformation
  let pos_aff : V3 := ⟨pos.x / os.sma, pos.y / os.sma, pos.z / os.semiminor⟩
  let pnt_aff : V3 := ⟨pnt.x / os.sma, pnt.y / os.sma, pnt.z / os.semiminor⟩
  -- 3D to 2D
  let yhat0 := pos_aff
  let zhat0 := pos_aff.cross pnt_aff
  let xhat0 := yhat0.cross zhat0
  let xhat := xhat0.normalize
  let yhat := yhat0.normalize
  let pos_2d : V2 := ⟨xhat.dot pos_aff, yhat.dot pos_aff⟩
  let pnt_2d : V2 := ⟨xhat.dot pnt_aff, yhat.dot pnt_aff⟩
  let xy := unit_circle.tangent pos_2d pnt_2d
  let lifted := (xy.x • xhat) + (xy.y • yhat)
  ⟨os.sma * lifted.x, os.sma * lifted.y, os.semiminor * lifted.z⟩

end OblateSpheroid

/-- Structured model of the construction-validation error strings: each
constructor of this type records which parameter was rejected, carrying
the value the Rust code formats into the message (the longitude variant
carries `DEG_PER_RAD * lon`, since the source reports it in degrees). -/
inductive OsError where
  | invalidEccentricity (v : ℝ)
  | invalidSemimajorAxis (v : ℝ)
  | invalidLongitude (degrees : ℝ)
  | invalidLatitude (v : ℝ)
deriving DecidableEq

/-- Embedding of `DEG_PER_RAD` (src/cogs/src/utl_const.rs). -/
def DEG_PER_RAD : ℝ := 180 / Real.pi

namespace OblateSpheroid

/-- Embedding of `TryFrom<&(f64, f64)>` (lines 95-109): eccentricity and
semimajor axis, coordinates at the surface origin. -/
def try_from_ea (eccentricity semimajor : ℝ) : Except OsError OblateSpheroid :=
  if eccentricity < 0 ∨ eccentricity ≥ 1 then
    .error (.invalidEccentricity eccentricity)
  else if semimajor < 0 then
    .error (.invalidSemimajorAxis semimajor)
  else
    .ok (default.set_with_ose eccentricity semimajor 0 0)

/-- Embedding of `TryFrom<&(f64, f64, f64, f64)>` (lines 130-152): the
full oblate-spheroidal coordinate set. -/
def try_from_ose (eccentricity semimajor longitude latitude : ℝ) :
    Except OsError OblateSpheroid :=
  if eccentricity < 0 ∨ eccentricity ≥ 1 then
    .error (.invalidEccentricity eccentricity)
  else if semimajor < 0 then
    .error (.invalidSemimajorAxis semimajor)
  else if longitude ≤ -Real.pi ∨ longitude > Real.pi then
    .error (.invalidLongitude (DEG_PER_RAD * longitude))
  else if latitude < -1 ∨ latitude > 1 then
    .error (.invalidLatitude latitude)
  else
    .ok (default.set_with_ose eccentricity semimajor longitude latitude)

/-- Embedding of `TryFrom<&(f64, SMatrix<f64, 3, 1>)>` (lines 170-183):
eccentricity and an explicit Cartesian point. -/
def try_from_cart (eccentricity : ℝ) (cart : V3) : Except OsError OblateSpheroid :=
  if eccentricity < 0 ∨ eccentricity ≥ 1 then
    .error (.invalidEccentricity eccentricity)
  else
    .ok (default.set_with_cartesian eccentricity cart)

end OblateSpheroid

/-- Whether an `Except` result is an error. -/
def isError {ε α : Type} : Except ε α → Prop
  | .error _ => True
  | .ok _ => False

/-!
An exact-arithmetic model of IEEE-754 `f64` special values, for the two
claims about NaN-producing divisions.  A value is either a finite real,
an infinity, or NaN; operations on finite operands are exact (no
rounding) and the special values follow the IEEE-754 rules (signed zeros
are not modelled; a finite zero behaves as +0).  The claims settled over
this model only traverse operations whose `f64` results are exact, so
the absence of rounding is faithful on those paths.
-/

/-- IEEE-754 double model: a finite real, an infinity, or NaN. -/
inductive Fp where
  | finite (q : ℝ)
  | posInf
  | negInf
  | nan

namespace Fp

/-- IEEE addition. -/
def add : Fp → Fp → Fp
  | finite a, finite b => finite (a + b)
  | finite _, posInf => posInf
  | finite _, negInf => negInf
  | posInf, finite _ => posInf
  | posInf, posInf => posInf
  | posInf, negInf => nan
  | negInf, finite _ => negInf
  | negInf, posInf => nan
  | negInf, negInf => negInf
  | nan, _ => nan
  | _, nan => nan

/-- IEEE subtraction. -/
def sub : Fp → Fp → Fp
  | finite a, finite b => finite (a - b)
  | finite _, posInf => negInf
  | finite _, negInf => posInf
  | posInf, finite _ => posInf
  | posInf, posInf => nan
  | posInf, negInf => posInf
  | negInf, finite _ => negInf
  | negInf, posInf => negInf
  | negInf, negInf => nan
  | nan, _ => nan
  | _, nan => nan

/-- IEEE negation. -/
def neg : Fp → Fp
  | finite a => finite (-a)
  | posInf => negInf
  | negInf => posInf
  | nan => nan

/-- IEEE multiplication (`0 * ∞ = NaN`). -/
def mul : Fp → Fp → Fp
  | finite a, finite b => finite (a * b)
  | finite a, posInf => if a = 0 then nan else if 0 < a then posInf else negInf
  | finite a, negInf => if a = 0 then nan else if 0 < a then negInf else posInf
  | posInf, finite b => if b = 0 then nan else if 0 < b then posInf else negInf
  | negInf, finite b => if b = 0 then nan else if 0 < b then negInf else posInf
  | posInf, posInf => posInf
  | posInf, negInf => negInf
  | negInf, posInf => negInf
  | negInf, negInf => posInf
  | nan, _ => nan
  | _, nan => nan

/-- IEEE division (`0 / 0 = NaN`, `x / 0 = ±∞` for finite `x ≠ 0`,
`∞ / ∞ = NaN`; the unmodelled sign of a zero divisor is taken as `+`). -/
def div : Fp → Fp → Fp
  | finite a, finite b =>
      if b = 0 then (if a = 0 then nan else if 0 < a then posInf else negInf)
      else finite (a / b)
  | finite _, posInf => finite 0
  | finite _, negInf => finite 0
  | posInf, finite b => if 0 ≤ b then posInf else negInf
  | negInf, finite b => if 0 ≤ b then negInf else posInf
  | posInf, posInf => nan
  | posInf, negInf => nan
  | negInf, posInf => nan
  | negInf, negInf => nan
  | nan, _ => nan
  | _, nan => nan

/-- IEEE square root (`sqrt` of a negative or of NaN is NaN). -/
def sqrt : Fp → Fp
  | finite a => if a < 0 then nan else finite (Real.sqrt a)
  | posInf => posInf
  | negInf => nan
  | nan => nan

/-- IEEE `<=` comparison: any comparison with NaN is false. -/
def leb : Fp → Fp → Bool
  | finite a, finite b => decide (a ≤ b)
  | finite _, posInf => true
  | finite _, negInf => false
  | posInf, finite _ => false
  | posInf, posInf => true
  | posInf, negInf => false
  | negInf, _ => true
  | nan, _ => false
  | _, nan => false

/-- IEEE `<` comparison: any comparison with NaN is false. -/
def ltb : Fp → Fp → Bool
  | finite a, finite b => decide (a < b)
  | finite _, posInf => true
  | finite _, negInf => false
  | posInf, _ => false
  | negInf, finite _ => true
  | negInf, posInf => true
  | negInf, negInf => false
  | nan, _ => false
  | _, nan => false

end Fp

/-- A 2-vector of IEEE doubles. -/
@[ext]
structure V2F where
  x : Fp
  y : Fp

/-- A 3-vector of IEEE doubles. -/
@[ext]
structure V3F where
  x : Fp
  y : Fp
  z : Fp

/-- Dot product over the IEEE model. -/
def V2F.dot (u v : V2F) : Fp := Fp.add (Fp.mul u.x v.x) (Fp.mul u.y v.y)

/-- Scalar multiple over the IEEE model. -/
def V2F.smul (c : Fp) (v : V2F) : V2F := ⟨Fp.mul c v.x, Fp.mul c v.y⟩

/-- Componentwise addition over the IEEE model. -/
def V2F.add (u v : V2F) : V2F := ⟨Fp.add u.x v.x, Fp.add u.y v.y⟩

/-- Componentwise subtraction over the IEEE model. -/
def V2F.sub (u v : V2F) : V2F := ⟨Fp.sub u.x v.x, Fp.sub u.y v.y⟩

namespace unit_circle

/-- Embedding of `unit_circle::tangent` over the IEEE special-value
model `Fp`, mirroring the source operation for operation: in particular
the division `pos/rmag` is performed before the inside-the-circle branch
is taken, exactly as in the source. -/
def tangentF (pos pnt : V2F) : V2F :=
  let r2 := pos.dot pos
  let rmag := Fp.sqrt r2
  let rhat : V2F := ⟨Fp.div pos.x rmag, Fp.div pos.y rmag⟩
  -- Inside or on the circle
  let s2 := Fp.sub r2 (Fp.finite 1)
  if Fp.leb s2 (Fp.finite 0) then
    rhat
  else
    let s := Fp.sqrt s2
    let sa := Fp.div (Fp.finite 1) rmag
    let ca := Fp.mul s sa
    let rhat_orth : V2F := ⟨Fp.neg rhat.y, rhat.x⟩
    let tpa := V2F.smul (Fp.sub rmag (Fp.mul s ca)) rhat
    let tpn := V2F.smul (Fp.mul s sa) rhat_orth
    if Fp.ltb (Fp.finite 0) (pnt.dot rhat_orth) then
      tpa.add tpn
    else
      tpa.sub tpn

end unit_circle

/-- IEEE `atan2` over the model (`atan2(±0, ±0)` is `0` here since zero
signs are not modelled; Rust's `f64::atan2(0.0, 0.0)` is `+0`). -/
def atan2F : Fp → Fp → Fp
  | .finite y, .finite x => .finite (atan2 y x)
  | .finite _, .posInf => .finite 0
  | .finite y, .negInf => .finite (if 0 ≤ y then Real.pi else -Real.pi)
  | .posInf, .finite _ => .finite (Real.pi / 2)
  | .negInf, .finite _ => .finite (-(Real.pi / 2))
  | .posInf, .posInf => .finite (Real.pi / 4)
  | .posInf, .negInf => .finite (3 * Real.pi / 4)
  | .negInf, .posInf => .finite (-(Real.pi / 4))
  | .negInf, .negInf => .finite (-(3 * Real.pi / 4))
  | .nan, _ => .nan
  | _, .nan => .nan

/-- The `OblateSpheroid` struct over the IEEE special-value model. -/
@[ext]
structure OblateSpheroidF where
  ecc : Fp
  sma : Fp
  lon : Fp
  lat : Fp
  xyz : V3F

namespace OblateSpheroidF

/-- Embedding of `OblateSpheroid::set_with_cartesian` over the IEEE
special-value model, mirroring the source operation for operation. -/
def set_with_cartesian (eccen : Fp) (cart : V3F) : OblateSpheroidF :=
  let x2y2 := Fp.add (Fp.mul cart.x cart.x) (Fp.mul cart.y cart.y)
  let z2 := Fp.mul cart.z cart.z
  let ome2 := Fp.sub (Fp.finite 1) (Fp.mul eccen eccen)
  let sma := Fp.sqrt (Fp.add x2y2 (Fp.div z2 ome2))
  ⟨eccen, sma, atan2F cart.y cart.x,
   Fp.div cart.z (Fp.mul sma (Fp.sqrt ome2)), cart⟩

/-- Embedding of `TryFrom<&(f64, SMatrix<f64, 3, 1>)>` over the IEEE
special-value model: the eccentricity guard, then `set_with_cartesian`
with no check on the Cartesian argument.  The eccentricity is a finite
double, given as the real it denotes. -/
def try_from_cart (eccentricity : ℝ) (cart : V3F) : Except OsError OblateSpheroidF :=
  if eccentricity < 0 ∨ eccentricity ≥ 1 then
    .error (.invalidEccentricity eccentricity)
  else
    .ok (set_with_cartesian (Fp.finite eccentricity) cart)

end OblateSpheroidF

/-!  Helper definitions and lemmas shared by the claim theorems. -/

/-- The Cartesian cache agrees with the oblate-spheroidal coordinates:
the invariant `set_with_ose` establishes, and the consistency every
validly constructed instance is documented to satisfy. -/
def OblateSpheroid.Consistent (os : OblateSpheroid) : Prop :=
  os.xyz = ⟨os.sma * Real.sqrt (1 - os.lat * os.lat) * Real.cos os.lon,
            os.sma * Real.sqrt (1 - os.lat * os.lat) * Real.sin os.lon,
            os.sma * os.lat * Real.sqrt (1 - os.ecc * os.ecc)⟩

theorem set_with_ose_consistent (os : OblateSpheroid) (e a lam eta : ℝ) :
    (os.set_with_ose e a lam eta).Consistent := rfl

/-- Index into a triple of basis vectors. -/
def tget (t : V3 × V3 × V3) (i : Fin 3) : V3 :=
  if i = 0 then t.1 else if i = 1 then t.2.1 else t.2.2

theorem sqrt_eval {x y : ℝ} (hy : 0 ≤ y) (h : y ^ 2 = x) : Real.sqrt x = y := by
  rw [← h]
  exact Real.sqrt_sq hy

/-!  Claim theorems. -/

/-- C9: in `unit_circle::tangent` the division `pos/‖pos‖` is performed
before the inside-the-circle branch and is unguarded; at
`pos = (0, 0)` (any `pnt`) it divides zero by zero, every component of
the returned vector is NaN, and the result is not a point on the unit
circle (its squared norm is NaN, not 1). -/
theorem claim_C9_tangent_origin_nan (pnt : V2F) :
    unit_circle.tangentF ⟨Fp.finite 0, Fp.finite 0⟩ pnt = ⟨Fp.nan, Fp.nan⟩ ∧
    (unit_circle.tangentF ⟨Fp.finite 0, Fp.finite 0⟩ pnt).dot
      (unit_circle.tangentF ⟨Fp.finite 0, Fp.finite 0⟩ pnt) ≠ Fp.finite 1 := by
  have h : unit_circle.tangentF ⟨Fp.finite 0, Fp.finite 0⟩ pnt = ⟨Fp.nan, Fp.nan⟩ := by
    simp [unit_circle.tangentF, V2F.dot, Fp.mul, Fp.add, Fp.sqrt, Fp.sub, Fp.div, Fp.leb]
  refine ⟨h, ?_⟩
  rw [h]
  simp [V2F.dot, Fp.mul, Fp.add]

/-- C10: the Cartesian constructor performs no check on the Cartesian
argument; for any valid eccentricity and the zero vector it succeeds,
yielding an instance with `semimajor = 0` and `latitude = NaN` (from the
unguarded `z / (a*sqrt(1-e^2))` with `a = 0`), so the constructed
instance violates the documented invariant `-1 ≤ η ≤ 1`. -/
theorem claim_C10_cart_zero_nan_latitude (e : ℝ) (h0 : 0 ≤ e) (h1 : e < 1) :
    ∃ os : OblateSpheroidF,
      OblateSpheroidF.try_from_cart e ⟨Fp.finite 0, Fp.finite 0, Fp.finite 0⟩ =
        Except.ok os ∧
      os.sma = Fp.finite 0 ∧ os.lat = Fp.nan ∧
      ¬(Fp.leb (Fp.finite (-1)) os.lat = true ∧ Fp.leb os.lat (Fp.finite 1) = true) := by
  have he2 : (1 : ℝ) - e * e ≠ 0 := by nlinarith
  have hn : ¬((1 : ℝ) < e * e) := by nlinarith
  refine ⟨OblateSpheroidF.set_with_cartesian (Fp.finite e)
    ⟨Fp.finite 0, Fp.finite 0, Fp.finite 0⟩, ?_, ?_, ?_, ?_⟩
  · simp [OblateSpheroidF.try_from_cart]
    constructor <;> linarith
  · simp [OblateSpheroidF.set_with_cartesian, Fp.mul, Fp.add, Fp.sub, Fp.div, Fp.sqrt, he2, hn]
  · simp [OblateSpheroidF.set_with_cartesian, Fp.mul, Fp.add, Fp.sub, Fp.div, Fp.sqrt, he2, hn]
  · simp [OblateSpheroidF.set_with_cartesian, Fp.mul, Fp.add, Fp.sub, Fp.div, Fp.sqrt, he2, hn, Fp.leb]

/-- C7: for `pos ≠ (0,0)`, `unit_circle::tangent` satisfies the spec's
contract: it returns `pos/‖pos‖` when `‖pos‖² ≤ 1` (independent of
`pnt`), and otherwise the closed-form tangent point on the side chosen
by the sign of `pnt · rhat_orth`, exactly as written in
`unit_circle.tangent_spec`. -/
theorem claim_C7_tangent_contract (pos pnt : V2) (h : pos ≠ (⟨0, 0⟩ : V2)) :
    unit_circle.tangent pos pnt = unit_circle.tangent_spec pos pnt := by
  have hd : 0 ≤ pos.dot pos := by
    have hdd : pos.dot pos = pos.x * pos.x + pos.y * pos.y := rfl
    rw [hdd]
    nlinarith [sq_nonneg pos.x, sq_nonneg pos.y]
  have hsq : Real.sqrt (pos.dot pos) ^ 2 = pos.dot pos := Real.sq_sqrt hd
  unfold unit_circle.tangent unit_circle.tangent_spec
  simp only [hsq, sub_nonpos]

theorem claim_C7_witness :
    (⟨0, 2⟩ : V2) ≠ (⟨0, 0⟩ : V2) ∧
    unit_circle.tangent ⟨0, 2⟩ ⟨1, 0⟩ = unit_circle.tangent_spec ⟨0, 2⟩ ⟨1, 0⟩ :=
  ⟨by simp [V2.ext_iff], claim_C7_tangent_contract ⟨0, 2⟩ ⟨1, 0⟩ (by simp [V2.ext_iff])⟩

/-- C6: for every instance whose Cartesian cache is consistent with its
oblate-spheroidal coordinates (as every constructed instance's is), the
first covariant basis vector is radial: `cartesian × covariant_basis[0]`
is exactly the zero vector. -/
theorem claim_C6_radial_first_covariant (os : OblateSpheroid) (hc : os.Consistent) :
    (os.cartesian).cross (tget os.covariant_basis 0) = V3.zero := by
  unfold OblateSpheroid.Consistent at hc
  rw [OblateSpheroid.cartesian, hc]
  have h0 : tget os.covariant_basis 0 = os.covariant_basis.1 := by simp [tget]
  rw [h0]
  unfold OblateSpheroid.covariant_basis V3.cross V3.zero
  ext <;> dsimp only <;> ring

theorem claim_C6_witness :
    (OblateSpheroid.default.set_with_ose 0 1 0 0).Consistent ∧
    ((OblateSpheroid.default.set_with_ose 0 1 0 0).cartesian).cross
      (tget (OblateSpheroid.default.set_with_ose 0 1 0 0).covariant_basis 0) = V3.zero :=
  ⟨set_with_ose_consistent OblateSpheroid.default 0 1 0 0,
   claim_C6_radial_first_covariant (OblateSpheroid.default.set_with_ose 0 1 0 0)
     (set_with_ose_consistent OblateSpheroid.default 0 1 0 0)⟩

/-- C5: for every valid, non-degenerate instance (eccentricity in
`[0, 1)`, positive semimajor axis, latitude fraction strictly between -1
and 1), `covariant_metric * contravariant_metric` is exactly the 3x3
identity over the reals. -/
theorem claim_C5_metric_inverse (os : OblateSpheroid)
    (h1 : 0 ≤ os.ecc) (h2 : os.ecc < 1) (h3 : 0 < os.sma)
    (h4 : -1 < os.lat) (h5 : os.lat < 1) :
    os.covariant_metric * os.contravariant_metric = 1 := by
  have ha : os.sma ≠ 0 := ne_of_gt h3
  have he : (1 : ℝ) - os.ecc * os.ecc ≠ 0 := by nlinarith
  have heta : (1 : ℝ) - os.lat * os.lat ≠ 0 := by nlinarith
  ext i j
  fin_cases i <;> fin_cases j <;>
    simp [OblateSpheroid.covariant_metric, OblateSpheroid.contravariant_metric,
          Matrix.mul_apply, Fin.sum_univ_three, Matrix.one_apply] <;>
    field_simp <;> ring

theorem claim_C5_witness :
    (0 : ℝ) ≤ (OblateSpheroid.default.set_with_ose 0.4 1 1 0.5).ecc ∧
    (OblateSpheroid.default.set_with_ose 0.4 1 1 0.5).ecc < 1 ∧
    0 < (OblateSpheroid.default.set_with_ose 0.4 1 1 0.5).sma ∧
    -1 < (OblateSpheroid.default.set_with_ose 0.4 1 1 0.5).lat ∧
    (OblateSpheroid.default.set_with_ose 0.4 1 1 0.5).lat < 1 ∧
    (OblateSpheroid.default.set_with_ose 0.4 1 1 0.5).covariant_metric *
      (OblateSpheroid.default.set_with_ose 0.4 1 1 0.5).contravariant_metric = 1 :=
  ⟨by norm_num [OblateSpheroid.set_with_ose], by norm_num [OblateSpheroid.set_with_ose],
   by norm_num [OblateSpheroid.set_with_ose], by norm_num [OblateSpheroid.set_with_ose],
   by norm_num [OblateSpheroid.set_with_ose],
   claim_C5_metric_inverse (OblateSpheroid.default.set_with_ose 0.4 1 1 0.5)
     (by norm_num [OblateSpheroid.set_with_ose]) (by norm_num [OblateSpheroid.set_with_ose])
     (by norm_num [OblateSpheroid.set_with_ose]) (by norm_num [OblateSpheroid.set_with_ose])
     (by norm_num [OblateSpheroid.set_with_ose])⟩

/-- C8: the `(e, a, λ, η)` constructor errors exactly when
`e < 0 ∨ e ≥ 1 ∨ a < 0 ∨ λ ≤ -π ∨ λ > π ∨ η < -1 ∨ η > 1`; the
`(e, cartesian)` constructor errors exactly when `e < 0 ∨ e ≥ 1`; every
error names the offending parameter and carries its value, the
longitude one in degrees; and an error result is never an instance. -/
theorem claim_C8_constructor_validation (e a lam eta : ℝ) (cart : V3) :
    (isError (OblateSpheroid.try_from_ose e a lam eta) ↔
      (e < 0 ∨ e ≥ 1 ∨ a < 0 ∨ lam ≤ -Real.pi ∨ lam > Real.pi ∨ eta < -1 ∨ eta > 1)) ∧
    (isError (OblateSpheroid.try_from_cart e cart) ↔ (e < 0 ∨ e ≥ 1)) ∧
    (∀ err, OblateSpheroid.try_from_ose e a lam eta = Except.error err →
      ((err = OsError.invalidEccentricity e ∧ (e < 0 ∨ e ≥ 1)) ∨
       (err = OsError.invalidSemimajorAxis a ∧ a < 0) ∨
       (err = OsError.invalidLongitude (DEG_PER_RAD * lam) ∧
         (lam ≤ -Real.pi ∨ lam > Real.pi)) ∨
       (err = OsError.invalidLatitude eta ∧ (eta < -1 ∨ eta > 1)))) ∧
    (∀ err, OblateSpheroid.try_from_cart e cart = Except.error err →
      (err = OsError.invalidEccentricity e ∧ (e < 0 ∨ e ≥ 1))) ∧
    (∀ os : OblateSpheroid, isError (OblateSpheroid.try_from_ose e a lam eta) →
      OblateSpheroid.try_from_ose e a lam eta ≠ Except.ok os) := by
  unfold OblateSpheroid.try_from_ose OblateSpheroid.try_from_cart
  refine ⟨?_, ?_, ?_, ?_, ?_⟩
  · split_ifs with h1 h2 h3 h4 <;> simp [isError] <;> push_neg at * <;> tauto
  · split_ifs with h1 <;> simp [isError] <;> push_neg at * <;> tauto
  · intro err herr
    split_ifs at herr with h1 h2 h3 h4 <;> simp_all <;> tauto
  · intro err herr
    split_ifs at herr with h1 <;> simp_all
  · intro os herr heq
    rw [heq] at herr
    exact herr

/-- C4: for every valid, non-degenerate instance, the contravariant and
covariant bases are dual: `contravariant_basis[i] · covariant_basis[j]`
is exactly the Kronecker delta, over the reals. -/
theorem claim_C4_basis_duality (os : OblateSpheroid)
    (h1 : 0 ≤ os.ecc) (h2 : os.ecc < 1) (h3 : 0 < os.sma)
    (h4 : -1 < os.lat) (h5 : os.lat < 1) (i j : Fin 3) :
    (tget os.contravariant_basis i).dot (tget os.covariant_basis j) =
      if i = j then 1 else 0 := by
  have ha : os.sma ≠ 0 := ne_of_gt h3
  have hq0 : 0 < Real.sqrt (1 - os.ecc * os.ecc) := Real.sqrt_pos.mpr (by nlinarith)
  have hw0 : 0 < Real.sqrt (1 - os.lat * os.lat) := Real.sqrt_pos.mpr (by nlinarith)
  have hq2 : Real.sqrt (1 - os.ecc * os.ecc) ^ 2 = 1 - os.ecc * os.ecc :=
    Real.sq_sqrt (by nlinarith)
  have hw2 : Real.sqrt (1 - os.lat * os.lat) ^ 2 = 1 - os.lat * os.lat :=
    Real.sq_sqrt (by nlinarith)
  have hpy : Real.cos os.lon ^ 2 + Real.sin os.lon ^ 2 = 1 := Real.cos_sq_add_sin_sq os.lon
  have hcl2 : Real.cos os.lon ^ 2 = 1 - Real.sin os.lon ^ 2 := by linarith [hpy]
  have key : ∀ u v : Fin 3,
      (tget os.contravariant_basis u).dot (tget os.covariant_basis v) =
        if u = v then 1 else 0 := by
    intro u v
    fin_cases u <;> fin_cases v <;>
        simp only [tget, OblateSpheroid.contravariant_basis,
          OblateSpheroid.covariant_basis, V3.dot, Fin.ext_iff] <;>
        norm_num
    all_goals set q := Real.sqrt (1 - os.ecc * os.ecc) with hqdef
    all_goals set w := Real.sqrt (1 - os.lat * os.lat) with hwdef
    all_goals set cl := Real.cos os.lon with hcldef
    all_goals set sl := Real.sin os.lon with hsldef
    all_goals try field_simp
    all_goals try field_simp
    all_goals ring_nf
    all_goals try rw [hcl2]
    all_goals try rw [hw2]
    all_goals try ring
  exact key i j

theorem claim_C4_witness :
    (0 : ℝ) ≤ (OblateSpheroid.default.set_with_ose 0.4 1 1 0.5).ecc ∧
    (OblateSpheroid.default.set_with_ose 0.4 1 1 0.5).ecc < 1 ∧
    0 < (OblateSpheroid.default.set_with_ose 0.4 1 1 0.5).sma ∧
    -1 < (OblateSpheroid.default.set_with_ose 0.4 1 1 0.5).lat ∧
    (OblateSpheroid.default.set_with_ose 0.4 1 1 0.5).lat < 1 ∧
    (tget (OblateSpheroid.default.set_with_ose 0.4 1 1 0.5).contravariant_basis 0).dot
      (tget (OblateSpheroid.default.set_with_ose 0.4 1 1 0.5).covariant_basis 1) =
      if (0 : Fin 3) = 1 then 1 else 0 :=
  ⟨by norm_num [OblateSpheroid.set_with_ose], by norm_num [OblateSpheroid.set_with_ose],
   by norm_num [OblateSpheroid.set_with_ose], by norm_num [OblateSpheroid.set_with_ose],
   by norm_num [OblateSpheroid.set_with_ose],
   claim_C4_basis_duality (OblateSpheroid.default.set_with_ose 0.4 1 1 0.5)
     (by norm_num [OblateSpheroid.set_with_ose]) (by norm_num [OblateSpheroid.set_with_ose])
     (by norm_num [OblateSpheroid.set_with_ose]) (by norm_num [OblateSpheroid.set_with_ose])
     (by norm_num [OblateSpheroid.set_with_ose]) 0 1⟩

set_option maxHeartbeats 3200000 in
/-- C3: for every valid, non-degenerate instance (eccentricity in
`[0, 1)`, positive semimajor axis, latitude fraction strictly between
-1 and 1, longitude away from the `x = 0` meridian where the closed
form of `inverse_jacobian` divides by zero) whose Cartesian cache is
consistent with its coordinates, `jacobian() * inverse_jacobian()` is
exactly the 3x3 identity over the reals. -/
theorem claim_C3_jacobian_inverse (os : OblateSpheroid)
    (h1 : 0 ≤ os.ecc) (h2 : os.ecc < 1) (h3 : 0 < os.sma)
    (h4 : -1 < os.lat) (h5 : os.lat < 1) (h6 : Real.cos os.lon ≠ 0)
    (hc : os.Consistent) :
    os.jacobian * os.inverse_jacobian = 1 := by
  have ha : os.sma ≠ 0 := ne_of_gt h3
  have hq0 : 0 < Real.sqrt (1 - os.ecc * os.ecc) := Real.sqrt_pos.mpr (by nlinarith)
  have hw0 : 0 < Real.sqrt (1 - os.lat * os.lat) := Real.sqrt_pos.mpr (by nlinarith)
  have hpy : Real.cos os.lon ^ 2 + Real.sin os.lon ^ 2 = 1 := Real.cos_sq_add_sin_sq os.lon
  have hcl2 : Real.cos os.lon ^ 2 = 1 - Real.sin os.lon ^ 2 := by linarith [hpy]
  have hsl2 : Real.sin os.lon ^ 2 = 1 - Real.cos os.lon ^ 2 := by linarith [hpy]
  have he2 : (1 : ℝ) - os.ecc * os.ecc ≠ 0 := by nlinarith
  have hl2p : (0 : ℝ) ≤ 1 - os.lat ^ 2 := by nlinarith
  have he2p : (0 : ℝ) ≤ 1 - os.ecc ^ 2 := by nlinarith
  unfold OblateSpheroid.Consistent at hc
  have hinv : os.inverse_jacobian =
      !![Real.sqrt (1 - os.lat * os.lat) * Real.cos os.lon,
         Real.sqrt (1 - os.lat * os.lat) * Real.sin os.lon,
         os.lat / Real.sqrt (1 - os.ecc * os.ecc);
         -Real.sin os.lon / (os.sma * Real.sqrt (1 - os.lat * os.lat)),
         Real.cos os.lon / (os.sma * Real.sqrt (1 - os.lat * os.lat)), 0;
         -(os.lat * Real.sqrt (1 - os.lat * os.lat) * Real.cos os.lon) / os.sma,
         -(os.lat * Real.sqrt (1 - os.lat * os.lat) * Real.sin os.lon) / os.sma,
         (1 - os.lat * os.lat) / (os.sma * Real.sqrt (1 - os.ecc * os.ecc))] := by
    set q := Real.sqrt (1 - os.ecc * os.ecc) with hqdef
    set w := Real.sqrt (1 - os.lat * os.lat) with hwdef
    set cl := Real.cos os.lon with hcldef
    set sl := Real.sin os.lon with hsldef
    have hw : w ≠ 0 := hw0.ne'
    have hq : q ≠ 0 := hq0.ne'
    have hq2 : q ^ 2 = 1 - os.ecc * os.ecc := Real.sq_sqrt (by nlinarith)
    unfold OblateSpheroid.inverse_jacobian
    rw [hc]
    ext i j
    fin_cases i <;> fin_cases j <;> simp <;> try rw [← hqdef]
    · field_simp <;> ring
    · field_simp <;> ring
    · field_simp <;> linear_combination os.sma * os.lat * hq2
    · rw [show os.sma * w * cl * (os.sma * w * cl) + os.sma * w * sl * (os.sma * w * sl) =
          (os.sma * w) ^ 2 from by linear_combination (os.sma * w) ^ 2 * hpy]
      field_simp <;> ring
    · rw [show (1 : ℝ) + os.sma * w * sl * (os.sma * w * sl) /
          (os.sma * w * cl * (os.sma * w * cl)) = 1 / cl ^ 2 from by
        field_simp <;> linear_combination (os.sma * w * cl) ^ 2 * hpy]
      field_simp <;> ring
    · field_simp <;> ring
    · field_simp <;> ring
    · field_simp <;> linear_combination (-(os.sma ^ 3 * os.lat ^ 2 * q)) * hq2
  rw [Matrix.mul_eq_one_comm, hinv]
  unfold OblateSpheroid.jacobian
  ext i j
  fin_cases i <;> fin_cases j <;>
      simp only [Matrix.mul_apply, Fin.sum_univ_three, Matrix.one_apply, Fin.ext_iff,
        Matrix.cons_val_zero, Matrix.cons_val_one, Matrix.head_cons, Matrix.cons_val_two,
        Matrix.tail_cons, Matrix.cons_val', Matrix.empty_val', Matrix.head_fin_const,
        Matrix.of_apply] <;>
      norm_num
  all_goals try field_simp
  all_goals ring_nf
  all_goals try rw [show Real.sqrt (1 - os.ecc ^ 2) ^ 3 =
    Real.sqrt (1 - os.ecc ^ 2) ^ 2 * Real.sqrt (1 - os.ecc ^ 2) from by ring]
  all_goals try rw [show Real.sqrt (1 - os.lat ^ 2) ^ 3 =
    Real.sqrt (1 - os.lat ^ 2) ^ 2 * Real.sqrt (1 - os.lat ^ 2) from by ring]
  all_goals try rw [Real.sq_sqrt hl2p]
  all_goals try rw [Real.sq_sqrt he2p]
  all_goals try rw [hcl2]
  all_goals try rw [hsl2]
  all_goals try ring

theorem claim_C3_witness :
    (0 : ℝ) ≤ (OblateSpheroid.default.set_with_ose 0.4 1 1 0.5).ecc ∧
    (OblateSpheroid.default.set_with_ose 0.4 1 1 0.5).ecc < 1 ∧
    0 < (OblateSpheroid.default.set_with_ose 0.4 1 1 0.5).sma ∧
    -1 < (OblateSpheroid.default.set_with_ose 0.4 1 1 0.5).lat ∧
    (OblateSpheroid.default.set_with_ose 0.4 1 1 0.5).lat < 1 ∧
    Real.cos (OblateSpheroid.default.set_with_ose 0.4 1 1 0.5).lon ≠ 0 ∧
    (OblateSpheroid.default.set_with_ose 0.4 1 1 0.5).Consistent ∧
    (OblateSpheroid.default.set_with_ose 0.4 1 1 0.5).jacobian *
      (OblateSpheroid.default.set_with_ose 0.4 1 1 0.5).inverse_jacobian = 1 :=
  ⟨by norm_num [OblateSpheroid.set_with_ose], by norm_num [OblateSpheroid.set_with_ose],
   by norm_num [OblateSpheroid.set_with_ose], by norm_num [OblateSpheroid.set_with_ose],
   by norm_num [OblateSpheroid.set_with_ose],
   by
     show Real.cos (1 : ℝ) ≠ 0
     have h1 : (0 : ℝ) < Real.cos 1 := Real.cos_pos_of_mem_Ioo
       (by constructor <;> nlinarith [Real.pi_gt_three])
     exact ne_of_gt h1,
   set_with_ose_consistent OblateSpheroid.default 0.4 1 1 0.5,
   claim_C3_jacobian_inverse (OblateSpheroid.default.set_with_ose 0.4 1 1 0.5)
     (by norm_num [OblateSpheroid.set_with_ose]) (by norm_num [OblateSpheroid.set_with_ose])
     (by norm_num [OblateSpheroid.set_with_ose]) (by norm_num [OblateSpheroid.set_with_ose])
     (by norm_num [OblateSpheroid.set_with_ose])
     (by
       show Real.cos (1 : ℝ) ≠ 0
       have h1 : (0 : ℝ) < Real.cos 1 := Real.cos_pos_of_mem_Ioo
         (by constructor <;> nlinarith [Real.pi_gt_three])
       exact ne_of_gt h1)
     (set_with_ose_consistent OblateSpheroid.default 0.4 1 1 0.5)⟩

/-- C1: round-trip consistency over the reals: for every valid
coordinate tuple with `e` in `[0, 0.9)`, `a` in `(0, 7.5)`, `lam` in
`(-pi, pi)` and `eta` in `(-0.9, 0.9)`, building an instance from the
oblate-spheroidal coordinates, reading its Cartesian triple, and
rebuilding from `(e, cartesian)` recovers the semimajor axis, longitude
and latitude fraction exactly. -/
theorem claim_C1_roundtrip (e a lam eta : ℝ)
    (h1 : 0 ≤ e) (h2 : e < 0.9) (h3 : 0 < a) (h4 : a < 7.5)
    (h5 : -Real.pi < lam) (h6 : lam < Real.pi)
    (h7 : -0.9 < eta) (h8 : eta < 0.9) :
    (OblateSpheroid.default.set_with_cartesian e
        (OblateSpheroid.default.set_with_ose e a lam eta).xyz).sma = a ∧
    (OblateSpheroid.default.set_with_cartesian e
        (OblateSpheroid.default.set_with_ose e a lam eta).xyz).lon = lam ∧
    (OblateSpheroid.default.set_with_cartesian e
        (OblateSpheroid.default.set_with_ose e a lam eta).xyz).lat = eta := by
  have he2 : (0 : ℝ) < 1 - e * e := by nlinarith
  have heta2 : (0 : ℝ) < 1 - eta * eta := by nlinarith
  have hq0 : 0 < Real.sqrt (1 - e * e) := Real.sqrt_pos.mpr he2
  have hw0 : 0 < Real.sqrt (1 - eta * eta) := Real.sqrt_pos.mpr heta2
  have hq2 : Real.sqrt (1 - e * e) ^ 2 = 1 - e * e := Real.sq_sqrt he2.le
  have hw2 : Real.sqrt (1 - eta * eta) ^ 2 = 1 - eta * eta := Real.sq_sqrt heta2.le
  have hpy : Real.cos lam ^ 2 + Real.sin lam ^ 2 = 1 := Real.cos_sq_add_sin_sq lam
  have hsum : a * Real.sqrt (1 - eta * eta) * Real.cos lam * (a * Real.sqrt (1 - eta * eta) * Real.cos lam) + a * Real.sqrt (1 - eta * eta) * Real.sin lam * (a * Real.sqrt (1 - eta * eta) * Real.sin lam) + a * eta * Real.sqrt (1 - e * e) * (a * eta * Real.sqrt (1 - e * e)) / (1 - e * e) = a ^ 2 := by
    field_simp
    linear_combination (a ^ 2 * (1 - e * e) * Real.sqrt (1 - eta * eta) ^ 2) * hpy +
      (a ^ 2 * (1 - e * e)) * hw2 + (a ^ 2 * eta ^ 2) * hq2
  have hsma : Real.sqrt (a * Real.sqrt (1 - eta * eta) * Real.cos lam * (a * Real.sqrt (1 - eta * eta) * Real.cos lam) + a * Real.sqrt (1 - eta * eta) * Real.sin lam * (a * Real.sqrt (1 - eta * eta) * Real.sin lam) + a * eta * Real.sqrt (1 - e * e) * (a * eta * Real.sqrt (1 - e * e)) / (1 - e * e)) = a := by
    rw [hsum]
    exact Real.sqrt_sq h3.le
  have hlon : atan2 (a * Real.sqrt (1 - eta * eta) * Real.sin lam)
      (a * Real.sqrt (1 - eta * eta) * Real.cos lam) = lam := by
    unfold atan2
    have hpos : (0 : ℝ) < a * Real.sqrt (1 - eta * eta) := mul_pos h3 hw0
    rw [show Complex.ofReal (a * Real.sqrt (1 - eta * eta) * Real.cos lam) +
        Complex.ofReal (a * Real.sqrt (1 - eta * eta) * Real.sin lam) * Complex.I =
        Complex.ofReal (a * Real.sqrt (1 - eta * eta)) *
          (Complex.ofReal (Real.cos lam) + Complex.ofReal (Real.sin lam) * Complex.I) from by
      push_cast
      ring]
    rw [Complex.arg_real_mul _ hpos, Complex.ofReal_cos, Complex.ofReal_sin]
    exact Complex.arg_cos_add_sin_mul_I (Set.mem_Ioc.mpr ⟨h5, h6.le⟩)
  have hlat : a * eta * Real.sqrt (1 - e * e) /
      (Real.sqrt (a * Real.sqrt (1 - eta * eta) * Real.cos lam * (a * Real.sqrt (1 - eta * eta) * Real.cos lam) + a * Real.sqrt (1 - eta * eta) * Real.sin lam * (a * Real.sqrt (1 - eta * eta) * Real.sin lam) + a * eta * Real.sqrt (1 - e * e) * (a * eta * Real.sqrt (1 - e * e)) / (1 - e * e)) * Real.sqrt (1 - e * e)) = eta := by
    rw [hsma]
    field_simp
    ring
  exact ⟨hsma, hlon, hlat⟩

theorem claim_C1_witness :
    (0 : ℝ) ≤ 0 ∧ (0 : ℝ) < 0.9 ∧ (0 : ℝ) < 1 ∧ (1 : ℝ) < 7.5 ∧
    -Real.pi < (0 : ℝ) ∧ (0 : ℝ) < Real.pi ∧ (-0.9 : ℝ) < 0 ∧ (0 : ℝ) < 0.9 ∧
    ((OblateSpheroid.default.set_with_cartesian 0
        (OblateSpheroid.default.set_with_ose 0 1 0 0).xyz).sma = 1 ∧
     (OblateSpheroid.default.set_with_cartesian 0
        (OblateSpheroid.default.set_with_ose 0 1 0 0).xyz).lon = 0 ∧
     (OblateSpheroid.default.set_with_cartesian 0
        (OblateSpheroid.default.set_with_ose 0 1 0 0).xyz).lat = 0) :=
  ⟨le_refl 0, by norm_num, by norm_num, by norm_num,
   by linarith [Real.pi_pos], Real.pi_pos, by norm_num, by norm_num,
   claim_C1_roundtrip 0 1 0 0 (le_refl 0) (by norm_num) (by norm_num) (by norm_num)
     (by linarith [Real.pi_pos]) Real.pi_pos (by norm_num) (by norm_num)⟩

theorem claim_C8_witness :
    isError (OblateSpheroid.try_from_ose (-1) 1 0 0) :=
  ((claim_C8_constructor_validation (-1) 1 0 0 ⟨0, 0, 0⟩).1).mpr (Or.inl (by norm_num))

/-- The oblate spheroid of the surface-tangent consistency check:
eccentricity 0.4, semimajor 1, at the surface origin (what
`try_from (0.4, 1.0)` constructs). -/
def os0 : OblateSpheroid := OblateSpheroid.default.set_with_ose 0.4 1 0 0

/-- Position of the surface-tangent consistency check. -/
def pos0 : V3 := ⟨1, 1, 1⟩

/-- Pointing vector of the surface-tangent consistency check. -/
def pnt0 : V3 := ⟨-1, -1, 0⟩

/-- Closed form of the tangent point `surface_tangent(pos0, pnt0)` on
the `e = 0.4, a = 1` spheroid. -/
def tpv : V3 :=
  ⟨(21 - 5 * Real.sqrt 23) / 67, (21 - 5 * Real.sqrt 23) / 67,
   21 * (5 + 2 * Real.sqrt 23) / 335⟩

theorem htan0 :
    unit_circle.tangent ⟨0, Real.sqrt 67 / Real.sqrt 21⟩
      ⟨-(10 / (Real.sqrt 2 * Real.sqrt 67)), -(2 * Real.sqrt 21 / Real.sqrt 67)⟩ =
    ⟨-(Real.sqrt 2 * Real.sqrt 23 / Real.sqrt 67), Real.sqrt 21 / Real.sqrt 67⟩ := by
  have h21 : Real.sqrt 21 * Real.sqrt 21 = 21 := Real.mul_self_sqrt (by norm_num)
  have h23 : Real.sqrt 23 * Real.sqrt 23 = 23 := Real.mul_self_sqrt (by norm_num)
  have h2 : Real.sqrt 2 * Real.sqrt 2 = 2 := Real.mul_self_sqrt (by norm_num)
  have h67 : Real.sqrt 67 * Real.sqrt 67 = 67 := Real.mul_self_sqrt (by norm_num)
  have h21p : (0 : ℝ) < Real.sqrt 21 := Real.sqrt_pos.mpr (by norm_num)
  have h23p : (0 : ℝ) < Real.sqrt 23 := Real.sqrt_pos.mpr (by norm_num)
  have h2p : (0 : ℝ) < Real.sqrt 2 := Real.sqrt_pos.mpr (by norm_num)
  have h67p : (0 : ℝ) < Real.sqrt 67 := Real.sqrt_pos.mpr (by norm_num)
  unfold unit_circle.tangent
  dsimp only [V2.dot, V2.divs]
  rw [show (0 : ℝ) * 0 + Real.sqrt 67 / Real.sqrt 21 * (Real.sqrt 67 / Real.sqrt 21) =
      67 / 21 from by
    rw [div_mul_div_comm, h67, h21]
    norm_num]
  rw [if_neg (by norm_num : ¬((67 : ℝ) / 21 - 1 ≤ 0))]
  rw [show ((67 : ℝ) / 21 - 1) = 46 / 21 from by norm_num]
  rw [show Real.sqrt ((46 : ℝ) / 21) = Real.sqrt 2 * Real.sqrt 23 / Real.sqrt 21 from
    sqrt_eval (by positivity) (by
      rw [div_pow, mul_pow, sq, sq, sq, h2, h23, h21]
      norm_num)]
  rw [show Real.sqrt ((67 : ℝ) / 21) = Real.sqrt 67 / Real.sqrt 21 from
    sqrt_eval (by positivity) (by
      rw [div_pow, sq, sq, h67, h21])]
  rw [div_self (show Real.sqrt 67 / Real.sqrt 21 ≠ 0 from by positivity), zero_div]
  rw [if_pos (show -(10 / (Real.sqrt 2 * Real.sqrt 67)) * -(1 : ℝ) +
      -(2 * Real.sqrt 21 / Real.sqrt 67) * 0 > 0 from by
    norm_num)]
  rw [V2.smul_mk2, V2.smul_mk2, V2.add_mk2, V2.mk.injEq]
  constructor
  · field_simp
  · field_simp
    linear_combination (Real.sqrt 21 * Real.sqrt 67) * h67 -
      (Real.sqrt 21 * Real.sqrt 67 * (Real.sqrt 23 * Real.sqrt 23)) * h2 -
      (2 * Real.sqrt 21 * Real.sqrt 67) * h23 - (Real.sqrt 21 * Real.sqrt 67) * h21

theorem tp_eval : os0.surface_tangent pos0 pnt0 = tpv := by
  have h21 : Real.sqrt 21 * Real.sqrt 21 = 21 := Real.mul_self_sqrt (by norm_num)
  have h23 : Real.sqrt 23 * Real.sqrt 23 = 23 := Real.mul_self_sqrt (by norm_num)
  have h2 : Real.sqrt 2 * Real.sqrt 2 = 2 := Real.mul_self_sqrt (by norm_num)
  have h67 : Real.sqrt 67 * Real.sqrt 67 = 67 := Real.mul_self_sqrt (by norm_num)
  have h21p : (0 : ℝ) < Real.sqrt 21 := Real.sqrt_pos.mpr (by norm_num)
  have h23p : (0 : ℝ) < Real.sqrt 23 := Real.sqrt_pos.mpr (by norm_num)
  have h2p : (0 : ℝ) < Real.sqrt 2 := Real.sqrt_pos.mpr (by norm_num)
  have h67p : (0 : ℝ) < Real.sqrt 67 := Real.sqrt_pos.mpr (by norm_num)
  have hsma : os0.sma = 1 := rfl
  have hsemi : os0.semiminor = Real.sqrt 21 / 5 := by
    show (1 : ℝ) * Real.sqrt (1 - 0.4 * 0.4) = Real.sqrt 21 / 5
    rw [one_mul, show (1 : ℝ) - 0.4 * 0.4 = 21 / 25 from by norm_num]
    exact sqrt_eval (by positivity)
      (by rw [div_pow, Real.sq_sqrt (by norm_num : (0 : ℝ) ≤ 21)]; norm_num)
  dsimp only [OblateSpheroid.surface_tangent, pos0, pnt0]
  rw [hsma, hsemi]
  rw [show (⟨1 / 1, 1 / 1, 1 / (Real.sqrt 21 / 5)⟩ : V3) =
      ⟨1, 1, 5 / Real.sqrt 21⟩ from by
    rw [V3.mk.injEq, one_div_div]
    norm_num]
  rw [show (⟨-1 / 1, -1 / 1, 0 / (Real.sqrt 21 / 5)⟩ : V3) =
      ⟨-1, -1, 0⟩ from by
    rw [V3.mk.injEq]
    norm_num]
  rw [show (⟨1, 1, 5 / Real.sqrt 21⟩ : V3).cross ⟨-1, -1, 0⟩ =
      ⟨5 / Real.sqrt 21, -(5 / Real.sqrt 21), 0⟩ from by
    unfold V3.cross
    rw [V3.mk.injEq]
    norm_num]
  rw [show (⟨1, 1, 5 / Real.sqrt 21⟩ : V3).cross ⟨5 / Real.sqrt 21, -(5 / Real.sqrt 21), 0⟩ =
      ⟨25 / 21, 25 / 21, -(10 / Real.sqrt 21)⟩ from by
    unfold V3.cross
    rw [V3.mk.injEq]
    refine ⟨?_, ?_, ?_⟩
    · rw [show (1 : ℝ) * 0 - 5 / Real.sqrt 21 * -(5 / Real.sqrt 21) =
        25 / (Real.sqrt 21 * Real.sqrt 21) from by ring]
      rw [h21]
    · rw [show (5 : ℝ) / Real.sqrt 21 * (5 / Real.sqrt 21) - 1 * 0 =
        25 / (Real.sqrt 21 * Real.sqrt 21) from by ring]
      rw [h21]
    · ring]
  have hnx : V3.norm ⟨25 / 21, 25 / 21, -(10 / Real.sqrt 21)⟩ =
      5 * (Real.sqrt 2 * Real.sqrt 67) / 21 := by
    unfold V3.norm V3.dot
    rw [show ((25 : ℝ) / 21 * (25 / 21) + 25 / 21 * (25 / 21) +
        -(10 / Real.sqrt 21) * -(10 / Real.sqrt 21)) =
        1250 / 441 + 100 / (Real.sqrt 21 * Real.sqrt 21) from by ring]
    rw [h21]
    rw [show ((1250 : ℝ) / 441 + 100 / 21) = 3350 / 441 from by norm_num]
    exact sqrt_eval (by positivity) (by
      rw [show (5 * (Real.sqrt 2 * Real.sqrt 67) / 21) ^ 2 =
        25 * (Real.sqrt 2 * Real.sqrt 2 * (Real.sqrt 67 * Real.sqrt 67)) / 441 from by ring]
      rw [h2, h67]
      norm_num)
  have hny : V3.norm ⟨1, 1, 5 / Real.sqrt 21⟩ = Real.sqrt 67 / Real.sqrt 21 := by
    unfold V3.norm V3.dot
    rw [show ((1 : ℝ) * 1 + 1 * 1 + 5 / Real.sqrt 21 * (5 / Real.sqrt 21)) =
        2 + 25 / (Real.sqrt 21 * Real.sqrt 21) from by ring]
    rw [h21]
    rw [show ((2 : ℝ) + 25 / 21) = 67 / 21 from by norm_num]
    exact sqrt_eval (by positivity) (by
      rw [show (Real.sqrt 67 / Real.sqrt 21) ^ 2 =
        Real.sqrt 67 * Real.sqrt 67 / (Real.sqrt 21 * Real.sqrt 21) from by ring]
      rw [h67, h21])
  rw [show (⟨25 / 21, 25 / 21, -(10 / Real.sqrt 21)⟩ : V3).normalize =
      ⟨5 / (Real.sqrt 2 * Real.sqrt 67), 5 / (Real.sqrt 2 * Real.sqrt 67),
       -(2 * Real.sqrt 21 / (Real.sqrt 2 * Real.sqrt 67))⟩ from by
    unfold V3.normalize
    rw [hnx, V3.mk.injEq]
    refine ⟨?_, ?_, ?_⟩
    · field_simp
      ring
    · field_simp
      ring
    · field_simp
      linear_combination (-(10 * Real.sqrt 2 * Real.sqrt 67)) * h21]
  rw [show (⟨1, 1, 5 / Real.sqrt 21⟩ : V3).normalize =
      ⟨Real.sqrt 21 / Real.sqrt 67, Real.sqrt 21 / Real.sqrt 67, 5 / Real.sqrt 67⟩ from by
    unfold V3.normalize
    rw [hny, V3.mk.injEq]
    refine ⟨?_, ?_, ?_⟩
    · field_simp
    · field_simp
    · field_simp]
  rw [show (⟨5 / (Real.sqrt 2 * Real.sqrt 67), 5 / (Real.sqrt 2 * Real.sqrt 67),
      -(2 * Real.sqrt 21 / (Real.sqrt 2 * Real.sqrt 67))⟩ : V3).dot
      ⟨1, 1, 5 / Real.sqrt 21⟩ = 0 from by
    unfold V3.dot
    field_simp
    ring]
  rw [show (⟨Real.sqrt 21 / Real.sqrt 67, Real.sqrt 21 / Real.sqrt 67,
      5 / Real.sqrt 67⟩ : V3).dot ⟨1, 1, 5 / Real.sqrt 21⟩ =
      Real.sqrt 67 / Real.sqrt 21 from by
    unfold V3.dot
    field_simp
    linear_combination (2 * Real.sqrt 21 * Real.sqrt 67) * h21 -
      (Real.sqrt 21 * Real.sqrt 67) * h67]
  rw [show (⟨5 / (Real.sqrt 2 * Real.sqrt 67), 5 / (Real.sqrt 2 * Real.sqrt 67),
      -(2 * Real.sqrt 21 / (Real.sqrt 2 * Real.sqrt 67))⟩ : V3).dot
      ⟨-1, -1, 0⟩ = -(10 / (Real.sqrt 2 * Real.sqrt 67)) from by
    unfold V3.dot
    ring]
  rw [show (⟨Real.sqrt 21 / Real.sqrt 67, Real.sqrt 21 / Real.sqrt 67,
      5 / Real.sqrt 67⟩ : V3).dot ⟨-1, -1, 0⟩ =
      -(2 * Real.sqrt 21 / Real.sqrt 67) from by
    unfold V3.dot
    ring]
  rw [htan0]
  dsimp only
  rw [V3.smul_mk3, V3.smul_mk3, V3.add_mk3]
  unfold tpv
  rw [V3.mk.injEq]
  refine ⟨?_, ?_, ?_⟩
  · field_simp
    linear_combination (335 * Real.sqrt 2 * Real.sqrt 23) * h67
  · field_simp
    linear_combination (335 * Real.sqrt 2 * Real.sqrt 23) * h67
  · field_simp
    linear_combination (44890 * Real.sqrt 2 * Real.sqrt 23 +
      1675 * Real.sqrt 2 * Real.sqrt 67 * Real.sqrt 67) * h21 -
      (14070 * Real.sqrt 2 * Real.sqrt 23) * h67

theorem os1_sma_sqrt :
    Real.sqrt (tpv.x * tpv.x + tpv.y * tpv.y + tpv.z * tpv.z / (1 - 0.4 * 0.4)) = 1 := by
  have h23 : Real.sqrt 23 * Real.sqrt 23 = 23 := Real.mul_self_sqrt (by norm_num)
  rw [show tpv.x * tpv.x + tpv.y * tpv.y + tpv.z * tpv.z / (1 - 0.4 * 0.4) = 1 from by
    unfold tpv
    dsimp only
    rw [show ((1 : ℝ) - 0.4 * 0.4) = 21 / 25 from by norm_num]
    field_simp
    linear_combination (315801150 : ℝ) * h23]
  exact Real.sqrt_one

theorem os1_sma : (OblateSpheroid.default.set_with_cartesian 0.4 tpv).sma = 1 := by
  show Real.sqrt (tpv.x * tpv.x + tpv.y * tpv.y + tpv.z * tpv.z / (1 - 0.4 * 0.4)) = 1
  exact os1_sma_sqrt

theorem sqrt2125 : Real.sqrt (1 - 0.4 * 0.4) = Real.sqrt 21 / 5 := by
  have h21 : Real.sqrt 21 * Real.sqrt 21 = 21 := Real.mul_self_sqrt (by norm_num)
  rw [show ((1 : ℝ) - 0.4 * 0.4) = 21 / 25 from by norm_num]
  exact sqrt_eval (by positivity)
    (by rw [div_pow, Real.sq_sqrt (by norm_num : (0 : ℝ) ≤ 21)]; norm_num)

theorem os1_lat : (OblateSpheroid.default.set_with_cartesian 0.4 tpv).lat =
    Real.sqrt 21 * (5 + 2 * Real.sqrt 23) / 67 := by
  have h21 : Real.sqrt 21 * Real.sqrt 21 = 21 := Real.mul_self_sqrt (by norm_num)
  have h21p : (0 : ℝ) < Real.sqrt 21 := Real.sqrt_pos.mpr (by norm_num)
  show tpv.z / (Real.sqrt (tpv.x * tpv.x + tpv.y * tpv.y + tpv.z * tpv.z / (1 - 0.4 * 0.4)) *
      Real.sqrt (1 - 0.4 * 0.4)) = Real.sqrt 21 * (5 + 2 * Real.sqrt 23) / 67
  rw [os1_sma_sqrt, sqrt2125, one_mul]
  unfold tpv
  dsimp only
  rw [div_div_eq_mul_div, div_mul_eq_mul_div, mul_comm]
  rw [div_eq_div_iff (by positivity) (by norm_num)]
  ring_nf
  rw [Real.sq_sqrt (by norm_num : (0 : ℝ) ≤ 21)]
  ring

theorem tpx_neg : (21 - 5 * Real.sqrt 23) / 67 < 0 := by
  have h23 : Real.sqrt 23 * Real.sqrt 23 = 23 := Real.mul_self_sqrt (by norm_num)
  have h23p : (0 : ℝ) < Real.sqrt 23 := Real.sqrt_pos.mpr (by norm_num)
  have hgt : (21 : ℝ) < 5 * Real.sqrt 23 := by nlinarith [h23, h23p]
  apply div_neg_of_neg_of_pos (by linarith) (by norm_num)

theorem os1_abs : Complex.abs (Complex.ofReal tpv.x + Complex.ofReal tpv.y * Complex.I) =
    -((21 - 5 * Real.sqrt 23) / 67) * Real.sqrt 2 := by
  have h2 : Real.sqrt 2 * Real.sqrt 2 = 2 := Real.mul_self_sqrt (by norm_num)
  rw [Complex.abs_apply, Complex.normSq_apply]
  rw [show (Complex.ofReal tpv.x + Complex.ofReal tpv.y * Complex.I).re = tpv.x from by simp]
  rw [show (Complex.ofReal tpv.x + Complex.ofReal tpv.y * Complex.I).im = tpv.y from by simp]
  unfold tpv
  dsimp only
  exact sqrt_eval (by nlinarith [tpx_neg, Real.sqrt_nonneg (2 : ℝ)])
    (by linear_combination (((21 - 5 * Real.sqrt 23) / 67) ^ 2) * h2)

theorem os1_cos : Real.cos (OblateSpheroid.default.set_with_cartesian 0.4 tpv).lon =
    -(1 / Real.sqrt 2) := by
  have h2p : (0 : ℝ) < Real.sqrt 2 := Real.sqrt_pos.mpr (by norm_num)
  have hxne : ((21 : ℝ) - 5 * Real.sqrt 23) / 67 ≠ 0 := ne_of_lt tpx_neg
  show Real.cos (atan2 tpv.y tpv.x) = -(1 / Real.sqrt 2)
  unfold atan2
  have hz : Complex.ofReal tpv.x + Complex.ofReal tpv.y * Complex.I ≠ 0 := by
    intro h
    rw [Complex.ext_iff] at h
    simp only [Complex.add_re, Complex.ofReal_re, Complex.mul_re, Complex.I_re,
      Complex.ofReal_im, Complex.I_im, Complex.zero_re] at h
    unfold tpv at h
    dsimp only at h
    exact hxne (by linarith [h.1])
  rw [Complex.cos_arg hz]
  rw [show (Complex.ofReal tpv.x + Complex.ofReal tpv.y * Complex.I).re = tpv.x from by simp]
  rw [os1_abs]
  unfold tpv
  dsimp only
  rw [div_eq_iff (ne_of_gt (mul_pos (neg_pos.mpr tpx_neg) h2p))]
  field_simp
  ring

theorem os1_sin : Real.sin (OblateSpheroid.default.set_with_cartesian 0.4 tpv).lon =
    -(1 / Real.sqrt 2) := by
  have h2p : (0 : ℝ) < Real.sqrt 2 := Real.sqrt_pos.mpr (by norm_num)
  show Real.sin (atan2 tpv.y tpv.x) = -(1 / Real.sqrt 2)
  unfold atan2
  rw [Complex.sin_arg]
  rw [show (Complex.ofReal tpv.x + Complex.ofReal tpv.y * Complex.I).im = tpv.y from by simp]
  rw [os1_abs]
  unfold tpv
  dsimp only
  rw [div_eq_iff (ne_of_gt (mul_pos (neg_pos.mpr tpx_neg) h2p))]
  field_simp
  ring

theorem os1_w : Real.sqrt (1 - (OblateSpheroid.default.set_with_cartesian 0.4 tpv).lat *
    (OblateSpheroid.default.set_with_cartesian 0.4 tpv).lat) =
    Real.sqrt 2 * (5 * Real.sqrt 23 - 21) / 67 := by
  have h21 : Real.sqrt 21 * Real.sqrt 21 = 21 := Real.mul_self_sqrt (by norm_num)
  have h23 : Real.sqrt 23 * Real.sqrt 23 = 23 := Real.mul_self_sqrt (by norm_num)
  have h2 : Real.sqrt 2 * Real.sqrt 2 = 2 := Real.mul_self_sqrt (by norm_num)
  have h23p : (0 : ℝ) < Real.sqrt 23 := Real.sqrt_pos.mpr (by norm_num)
  have hgt : (21 : ℝ) < 5 * Real.sqrt 23 := by nlinarith [h23, h23p]
  rw [os1_lat]
  refine sqrt_eval (div_nonneg (mul_nonneg (Real.sqrt_nonneg 2) (by linarith)) (by norm_num)) ?_
  field_simp
  linear_combination
    (1979649 - 942690 * Real.sqrt 23 + 112225 * (Real.sqrt 23 * Real.sqrt 23)) * h2 +
    (112225 + 89780 * Real.sqrt 23 + 17956 * (Real.sqrt 23 * Real.sqrt 23)) * h21 +
    (601526 : ℝ) * h23

theorem os1_e2 : (OblateSpheroid.default.set_with_cartesian 0.4 tpv).covariant_basis.2.1 =
    ⟨(5 * Real.sqrt 23 - 21) / 67, -((5 * Real.sqrt 23 - 21) / 67), 0⟩ := by
  have h2 : Real.sqrt 2 * Real.sqrt 2 = 2 := Real.mul_self_sqrt (by norm_num)
  have h2p : (0 : ℝ) < Real.sqrt 2 := Real.sqrt_pos.mpr (by norm_num)
  unfold OblateSpheroid.covariant_basis
  dsimp only
  rw [os1_sma, os1_w, os1_cos, os1_sin, V3.mk.injEq]
  refine ⟨?_, ?_, rfl⟩
  · field_simp
    ring
  · field_simp
    ring

theorem os1_e3 : (OblateSpheroid.default.set_with_cartesian 0.4 tpv).covariant_basis.2.2 =
    ⟨Real.sqrt 21 * (Real.sqrt 23 + 5) / 4, Real.sqrt 21 * (Real.sqrt 23 + 5) / 4,
     Real.sqrt 21 / 5⟩ := by
  have h21 : Real.sqrt 21 * Real.sqrt 21 = 21 := Real.mul_self_sqrt (by norm_num)
  have h23 : Real.sqrt 23 * Real.sqrt 23 = 23 := Real.mul_self_sqrt (by norm_num)
  have h2 : Real.sqrt 2 * Real.sqrt 2 = 2 := Real.mul_self_sqrt (by norm_num)
  have h23p : (0 : ℝ) < Real.sqrt 23 := Real.sqrt_pos.mpr (by norm_num)
  have h2p : (0 : ℝ) < Real.sqrt 2 := Real.sqrt_pos.mpr (by norm_num)
  have hgt : (21 : ℝ) < 5 * Real.sqrt 23 := by nlinarith [h23, h23p]
  unfold OblateSpheroid.covariant_basis
  dsimp only
  rw [show (OblateSpheroid.default.set_with_cartesian 0.4 tpv).ecc = (0.4 : ℝ) from rfl]
  rw [os1_sma, os1_w, os1_lat, os1_cos, os1_sin, sqrt2125, V3.mk.injEq]
  have hwpos : (0 : ℝ) < Real.sqrt 2 * (5 * Real.sqrt 23 - 21) / 67 :=
    div_pos (mul_pos h2p (by linarith)) (by norm_num)
  refine ⟨?_, ?_, by rw [one_mul]⟩
  · rw [div_eq_div_iff (ne_of_gt hwpos) (by norm_num : (4 : ℝ) ≠ 0)]
    field_simp
    linear_combination (7035 * Real.sqrt 21 - 268 * Real.sqrt 21 * Real.sqrt 23 -
      335 * Real.sqrt 21 * (Real.sqrt 23 * Real.sqrt 23)) * h2 -
      (670 * Real.sqrt 21) * h23
  · rw [div_eq_div_iff (ne_of_gt hwpos) (by norm_num : (4 : ℝ) ≠ 0)]
    field_simp
    linear_combination (7035 * Real.sqrt 21 - 268 * Real.sqrt 21 * Real.sqrt 23 -
      335 * Real.sqrt 21 * (Real.sqrt 23 * Real.sqrt 23)) * h2 -
      (670 * Real.sqrt 21) * h23

/-- The instance reconstructed at the tangent point with the same
eccentricity, as in the surface-tangent consistency check. -/
def os1 : OblateSpheroid :=
  OblateSpheroid.default.set_with_cartesian 0.4 (os0.surface_tangent pos0 pnt0)

/-- C2: surface-tangent self-consistency at `e = 0.4`, `a = 1`,
`pos = (1,1,1)`, `pnt = (-1,-1,0)`: with `tp = surface_tangent(pos, pnt)`
and the instance rebuilt from `(0.4, tp)`, the vector `pos - tp` is a
linear combination of that instance's longitude- and latitude-covariant
basis vectors, those two basis vectors are not parallel (their cross
product is nonzero, so the span really is a plane), and the 3x3 matrix
with columns `[e_lon, e_lat, tp - pos]` has determinant exactly zero
over the reals. -/
theorem claim_C2_surface_tangent_consistency :
    (∃ α β : ℝ, pos0 - os0.surface_tangent pos0 pnt0 =
        α • os1.covariant_basis.2.1 + β • os1.covariant_basis.2.2) ∧
    os1.covariant_basis.2.1.cross os1.covariant_basis.2.2 ≠ V3.zero ∧
    Matrix.det !![os1.covariant_basis.2.1.x, os1.covariant_basis.2.2.x,
                  (os0.surface_tangent pos0 pnt0 - pos0).x;
                  os1.covariant_basis.2.1.y, os1.covariant_basis.2.2.y,
                  (os0.surface_tangent pos0 pnt0 - pos0).y;
                  os1.covariant_basis.2.1.z, os1.covariant_basis.2.2.z,
                  (os0.surface_tangent pos0 pnt0 - pos0).z] = 0 := by
  have h21 : Real.sqrt 21 * Real.sqrt 21 = 21 := Real.mul_self_sqrt (by norm_num)
  have h23 : Real.sqrt 23 * Real.sqrt 23 = 23 := Real.mul_self_sqrt (by norm_num)
  have h21p : (0 : ℝ) < Real.sqrt 21 := Real.sqrt_pos.mpr (by norm_num)
  have h23p : (0 : ℝ) < Real.sqrt 23 := Real.sqrt_pos.mpr (by norm_num)
  have hgt : (21 : ℝ) < 5 * Real.sqrt 23 := by nlinarith [h23, h23p]
  have hos1e2 : os1.covariant_basis.2.1 =
      ⟨(5 * Real.sqrt 23 - 21) / 67, -((5 * Real.sqrt 23 - 21) / 67), 0⟩ := by
    unfold os1
    rw [tp_eval]
    exact os1_e2
  have hos1e3 : os1.covariant_basis.2.2 =
      ⟨Real.sqrt 21 * (Real.sqrt 23 + 5) / 4, Real.sqrt 21 * (Real.sqrt 23 + 5) / 4,
       Real.sqrt 21 / 5⟩ := by
    unfold os1
    rw [tp_eval]
    exact os1_e3
  refine ⟨⟨0, (230 - 42 * Real.sqrt 23) / (67 * Real.sqrt 21), ?_⟩, ?_, ?_⟩
  · rw [tp_eval, hos1e2, hos1e3]
    unfold pos0 tpv
    rw [V3.sub_mk3, V3.smul_mk3, V3.smul_mk3, V3.add_mk3, V3.mk.injEq]
    refine ⟨?_, ?_, ?_⟩
    · field_simp
      linear_combination (2814 * Real.sqrt 21) * h23
    · field_simp
      linear_combination (2814 * Real.sqrt 21) * h23
    · field_simp
      linear_combination (0 : ℝ) * h21
  · rw [hos1e2, hos1e3]
    unfold V3.cross V3.zero
    intro hEq
    rw [V3.mk.injEq] at hEq
    obtain ⟨hx, -⟩ := hEq
    dsimp only at hx
    have hpos : (0 : ℝ) < (5 * Real.sqrt 23 - 21) / 67 * (Real.sqrt 21 / 5) :=
      mul_pos (div_pos (by linarith) (by norm_num)) (div_pos h21p (by norm_num))
    nlinarith [hpos, hx]
  · rw [tp_eval, hos1e2, hos1e3]
    unfold pos0 tpv
    rw [V3.sub_mk3]
    rw [Matrix.det_fin_three]
    norm_num
    linear_combination (21 / 4489 * Real.sqrt 21 * Real.sqrt 23 -
      441 / 22445 * Real.sqrt 21) * h23

theorem claim_C10_witness :
    (0 : ℝ) ≤ 0 ∧ (0 : ℝ) < 1 ∧
    ∃ os : OblateSpheroidF,
      OblateSpheroidF.try_from_cart 0 ⟨Fp.finite 0, Fp.finite 0, Fp.finite 0⟩ =
        Except.ok os ∧
      os.sma = Fp.finite 0 ∧ os.lat = Fp.nan ∧
      ¬(Fp.leb (Fp.finite (-1)) os.lat = true ∧ Fp.leb os.lat (Fp.finite 1) = true) :=
  ⟨by norm_num, by norm_num,
   claim_C10_cart_zero_nan_latitude 0 (by norm_num) (by norm_num)⟩

end
